import Mathlib

/-!
Verification development for the ala-score-processors repository.

Shallow embedding of the scheduling, cron-matching, seasonal-configuration,
finalization, persistence and fetch-retry logic, translated from the Python
sources, together with theorems settling the frozen claims about them.

Python string primitives (`split`, `strip`, `in`, `str`) are modelled by
structurally recursive functions over `List Char` so that every definition
evaluates inside the kernel.
-/

/-! ### Python string, arithmetic and parsing helpers -/

/-- Python `c in s` for a single character. -/
def pyContains (s : String) (c : Char) : Bool :=
  s.toList.contains c

/-- Python `s.split(sep)` for a single-character separator: split at every
occurrence, keeping empty pieces (`"a//b".split("/") == ["a", "", "b"]`). -/
def splitOnCharList (sep : Char) : List Char → List (List Char)
  | [] => [[]]
  | c :: cs =>
    if c = sep then [] :: splitOnCharList sep cs
    else
      match splitOnCharList sep cs with
      | r :: rs => (c :: r) :: rs
      | [] => [[c]]

def pySplitOnChar (s : String) (sep : Char) : List String :=
  (splitOnCharList sep s.toList).map String.mk

/-- Python `s.strip()`. -/
def pyStrip (s : String) : String :=
  String.mk (((s.toList.dropWhile Char.isWhitespace).reverse.dropWhile
    Char.isWhitespace).reverse)

/-- Worker for Python's argumentless `s.split()`: words separated by
whitespace runs, empty pieces dropped. -/
def pyWordsLoop : List Char → List Char → List (List Char)
  | [], acc => if acc = [] then [] else [acc.reverse]
  | c :: cs, acc =>
    if c.isWhitespace then
      if acc = [] then pyWordsLoop cs []
      else acc.reverse :: pyWordsLoop cs []
    else pyWordsLoop cs (c :: acc)

def pySplitWs (s : String) : List String :=
  (pyWordsLoop s.toList []).map String.mk

def digitsVal (cs : List Char) : Nat :=
  cs.foldl (fun a c => a * 10 + (c.toNat - '0'.toNat)) 0

/-- Python `int(str)` on the plain sign-and-digits forms (the
surrounding-whitespace and underscore niceties of `int` never arise for cron
fields, which are produced by whitespace splitting); a failure to parse is
Python's `ValueError`, modelled as `none`. -/
def pyInt? (s : String) : Option Int :=
  match s.toList with
  | [] => none
  | '-' :: rest =>
    if rest ≠ [] ∧ rest.all (·.isDigit) then some (-(digitsVal rest : Int)) else none
  | '+' :: rest =>
    if rest ≠ [] ∧ rest.all (·.isDigit) then some ((digitsVal rest : Int)) else none
  | cs =>
    if cs ≠ [] ∧ cs.all (·.isDigit) then some ((digitsVal cs : Int)) else none

/-- Python `%` on integers: the result takes the sign of the divisor, which
is exactly `Int.fmod`; division by zero raises (`ZeroDivisionError`),
modelled as `none`. -/
def pyMod (a b : Int) : Option Int :=
  if b = 0 then none else some (Int.fmod a b)

/-! ### Cron matcher (src/scheduler/advanced_scheduler.py, lines 195-231)

`matches_field` is the inner `matches_field` of
`AdvancedCronScheduler._matches_cron`.  A raised exception anywhere inside
the Python function is caught by the surrounding `try`/`except` and turned
into `False`; here exceptions are the `none` of `Option`, collapsed by
`Option.getD false` in `matches_cron`.  `current_value` is a Python int,
hence `Int`.
-/

def matches_field (fieldValue : String) (currentValue : Int) : Option Bool :=
  if fieldValue = "*" then
    some true
  else if pyContains fieldValue '/' then
    -- Handle step values (e.g., */3, 0-30/3)
    match pySplitOnChar fieldValue '/' with
    | [base, stepStr] =>
      match pyInt? stepStr with
      | none => none
      | some step =>
        if base = "*" then
          (pyMod currentValue step).map (fun m => decide (m = 0))
        else if pyContains base '-' then
          match pySplitOnChar base '-' with
          | [startStr, endStr] =>
            match pyInt? startStr, pyInt? endStr with
            | some start, some stop =>
              if start ≤ currentValue ∧ currentValue ≤ stop then
                (pyMod (currentValue - start) step).map (fun m => decide (m = 0))
              else some false
            | _, _ => none
          | _ => none
        else
          match pyInt? base with
          | none => none
          | some start =>
            if start ≤ currentValue then
              (pyMod (currentValue - start) step).map (fun m => decide (m = 0))
            else some false
    | _ => none
  else if pyContains fieldValue '-' then
    -- Handle ranges (e.g., 21-23)
    match pySplitOnChar fieldValue '-' with
    | [startStr, endStr] =>
      match pyInt? startStr, pyInt? endStr with
      | some start, some stop => some (decide (start ≤ currentValue ∧ currentValue ≤ stop))
      | _, _ => none
    | _ => none
  else if pyContains fieldValue ',' then
    -- Handle comma-separated lists (e.g., 3,4,5)
    some (decide (toString currentValue ∈ pySplitOnChar fieldValue ','))
  else
    -- Exact match
    some (decide (toString currentValue = fieldValue))

/-- The components of the Python `datetime` that the cron matcher reads.
`weekday` is `datetime.weekday()`, numbered 0 = Monday .. 6 = Sunday. -/
structure Instant where
  minute : Int
  hour : Int
  day : Int
  month : Int
  weekday : Int
deriving DecidableEq

/-- `AdvancedCronScheduler._matches_cron`: strip and whitespace-split the
expression; reject anything but exactly five fields; then conjoin the five
field matches with Python's short-circuit `and`; any exception yields
`False`. -/
def matches_cron (cronExpr : String) (t : Instant) : Bool :=
  (match pySplitWs (pyStrip cronExpr) with
  | [minuteF, hourF, dayF, monthF, dowF] =>
    (do
      let b1 ← matches_field minuteF t.minute
      if b1 then do
        let b2 ← matches_field hourF t.hour
        if b2 then do
          let b3 ← matches_field dayF t.day
          if b3 then do
            let b4 ← matches_field monthF t.month
            if b4 then matches_field dowF t.weekday
            else pure false
          else pure false
        else pure false
      else pure false : Option Bool)
  | _ => some false).getD false

example : matches_cron "*/3 21-23 * * 3,4,5" ⟨21, 22, 5, 10, 3⟩ = true := by decide
example : matches_cron "*/3 21-23 * * 3,4,5" ⟨21, 22, 5, 10, 6⟩ = false := by decide
example : matches_cron "* * * * *" ⟨0, 0, 1, 1, 0⟩ = true := by decide
example : matches_field "*/3" 22 = some false := by decide
example : matches_field "0-30/7" 14 = some true := by decide
example : matches_field "5/3" 11 = some true := by decide
example : matches_field "*/0" 4 = none := by decide

/-! ### Scheduler tick (src/scheduler/advanced_scheduler.py, lines 250-265;
the per-task body of `AdvancedCronScheduler.start`; `CronScheduler.start` in
src/scheduler/cron_scheduler.py lines 62-77 is identical up to the matcher
and clock used)

For one registered entry and one loop iteration: skip if `last_run` already
equals the current minute string; otherwise, if the cron expression matches
the current time, invoke the task; `task["last_run"] = current_minute` sits
inside the `try` block after the invocation, so it executes only when the
task did not raise; the `except` branch logs and leaves `last_run` alone.
`raises` abstracts whether this invocation raises an exception; the first
component of the result is the entry's new `last_run`, the second records
whether the task was invoked this iteration.
-/

def tick_task (cron : String) (lastRun : Option String) (now : Instant)
    (currentMinute : String) (raises : Bool) : Option String × Bool :=
  if lastRun = some currentMinute then (lastRun, false)
  else if matches_cron cron now then
    if raises then (lastRun, true) else (some currentMinute, true)
  else (lastRun, false)

/-! ### Seasonal schedules (src/config/seasonal_schedules.py) -/

structure SeasonProfile where
  name : String
  months : List Nat
  sports : List String
deriving DecidableEq

/-- `SEASONAL_SPORTS` (lines 7-33), in declaration order (Python dicts
iterate in insertion order). -/
def SEASONAL_SPORTS : List SeasonProfile :=
  [⟨"fall", [8, 9, 10, 11], ["football", "volleyball"]⟩,
   ⟨"late_fall", [11, 12], ["football", "volleyball", "basketball"]⟩,
   ⟨"winter", [12, 1, 2], ["basketball"]⟩,
   ⟨"late_winter", [2, 3], ["basketball", "baseball", "soccer", "softball"]⟩,
   ⟨"spring", [3, 4, 5, 6], ["baseball", "softball", "soccer"]⟩]

/-- `get_current_season` (lines 41-56): first profile whose month list
contains the current month wins; the default fallback is `"fall"`. -/
def get_current_season (currentMonth : Nat) : String :=
  match SEASONAL_SPORTS.find? (fun config => currentMonth ∈ config.months) with
  | some config => config.name
  | none => "fall"

/-! ### Time-window gate and the scrape handler's skip decision
(src/api/routes.py lines 60-68, src/utils/time_helpers.py lines 22-27,
src/scheduler/tasks.py lines 19-29 and 47-53,
src/scheduler/timezone_tasks.py lines 6-16)

`scrape_handler` computes
`force = body.get("force") or request.query_params.get("force") == "1" or
bool(date_override_mdy)` and then skips the run when
`not within_run_window_ny() and not force`.  The wall-clock predicate
`within_run_window_ny()` is abstracted as the boolean `withinWindow`.
-/

/-- The `force` flag as resolved by `scrape_handler` (routes.py lines
62-64). `dateOverrideMdy` is `to_mdy(date)` of the request's date override
(non-`none` exactly when a parseable override date was supplied). -/
def handler_force (bodyForce : Bool) (queryForce : Option String)
    (dateOverrideMdy : Option String) : Bool :=
  bodyForce || (queryForce == some "1") || dateOverrideMdy.isSome

/-- routes.py line 67: the run is skipped exactly when the time-window gate
says "outside window" and the invocation is not forced. -/
def scrape_gate_skips (withinWindow force : Bool) : Bool :=
  !withinWindow && !force

/-- The `force` value submitted by `scheduled_scrape_task` (tasks.py lines
19-29), the basic scheduler's default cron scrape task: body has
`"force": False` ("Respect time window"), no query parameters, no date
override. -/
def scheduled_scrape_task_force : Bool := handler_force false none none

/-- The `force` value submitted by `scheduled_football_scrape` (tasks.py
lines 47-53): `force=True` ("Force run regardless of time window"). -/
def scheduled_football_scrape_force : Bool := handler_force true none none

/-- The `force` value submitted by the advanced scheduler's timezone cron
scrape tasks: `manual_timezone_scrape` calls `scheduled_scrape_with_config`
with `force=True` (timezone_tasks.py lines 6-16). -/
def timezone_scrape_task_force : Bool := handler_force true none none

/-! ### Finalizer (src/finalize/score_finalizer.py) -/

/-- The columns of a queried row that `finalize_scores` reads
(`id, state_code, sport, contest_state, team1_score, team2_score`), plus
the two columns its updates overwrite (`is_live`, `details`). -/
structure GameRow where
  id : Nat
  state_code : String
  sport : String
  contest_state : String
  team1_score : Option Int
  team2_score : Option Int
  is_live : Bool
  details : String
deriving DecidableEq

/-- One update record built by `finalize_scores` (lines 74-79). -/
structure UpdateRec where
  id : Nat
  contest_state : String
  is_live : Bool
  details : String
deriving DecidableEq

/-- The per-row body of the update-building loop (lines 60-80): only rows
whose `contest_state` is `"contest-in-progress"` are considered; both
scores `None` classifies as `"score-not-reported"`, at least one score
present classifies as `"needs-verification"`; a produced update forces
`is_live` to `False` and `details` to `"Final"`. -/
def build_update (row : GameRow) : Option UpdateRec :=
  if row.contest_state = "contest-in-progress" then
    let newState : Option String :=
      if row.team1_score = none ∧ row.team2_score = none then
        some "score-not-reported"
      else if row.team1_score ≠ none ∨ row.team2_score ≠ none then
        some "needs-verification"
      else none
    match newState with
    | some ns => some ⟨row.id, ns, false, "Final"⟩
    | none => none
  else none

/-- The whole update-building loop: one appended update per reclassified
row, in row order. -/
def build_updates (rows : List GameRow) : List UpdateRec :=
  rows.filterMap build_update

/-- The `contest_state` part of the finalize query (lines 27-37):
`.neq("contest_state", "boxscore").neq("contest_state", "pregame")`. -/
def passes_state_filter (s : String) : Bool :=
  s ≠ "boxscore" && s ≠ "pregame"

/-- The whole row filter of the finalize query:
`.in_("state_code", states).eq("sport", sport)` plus the two `neq`
contest-state exclusions. -/
def finalize_query_pred (states : List String) (sport : String)
    (r : GameRow) : Bool :=
  states.contains r.state_code && r.sport == sport &&
    passes_state_filter r.contest_state

/-- The rows returned by the finalize query against store contents
`store`. -/
def finalize_query (store : List GameRow) (states : List String)
    (sport : String) : List GameRow :=
  store.filter (finalize_query_pred states sport)

/-- The update records one finalize pass generates from store contents
`store`. -/
def finalize_pass_updates (store : List GameRow) (states : List String)
    (sport : String) : List UpdateRec :=
  build_updates (finalize_query store states sport)

/-- The store's view of one row after the upsert keyed by `id`
(`on_conflict="id"`): if some update carries this row's id, its
`contest_state`, `is_live` and `details` columns are overwritten. -/
def apply_update (updates : List UpdateRec) (r : GameRow) : GameRow :=
  match updates.find? (fun u => u.id == r.id) with
  | some u => { r with contest_state := u.contest_state,
                       is_live := u.is_live, details := u.details }
  | none => r

/-- The response record of `finalize_scores` (success case). -/
structure FinalizeResp where
  rows : Nat
  rowsNeedingVerification : Nat
  rowsMissingScore : Nat
  rowsSuccessfullyUpdated : Nat
deriving DecidableEq

/-- `finalize_scores` (lines 45-112) after the fetch succeeded, as a
function of the queried rows and of the store's answer to the single upsert
call (`upsertResult`; `.ok n` means `len(update_response.data)` was `n`,
`.error e` means the store call raised `e`).  The two counters incremented
inside the loop equal counts over the built updates.  An upsert failure is
printed and then re-raised as `Exception("Database update error: ...")`
(lines 97-99), which escapes `finalize_scores`. -/
def finalize_scores (rows : List GameRow) (upsertResult : Except String Nat) :
    Except String FinalizeResp :=
  if rows.isEmpty then .ok ⟨0, 0, 0, 0⟩
  else
    let updates := build_updates rows
    let nv := updates.countP (fun u => u.contest_state == "needs-verification")
    let ms := updates.countP (fun u => u.contest_state == "score-not-reported")
    if updates.isEmpty then .ok ⟨rows.length, nv, ms, 0⟩
    else
      match upsertResult with
      | .ok n => .ok ⟨rows.length, nv, ms, n⟩
      | .error e => .error ("Database update error: " ++ e)

/-! ### Deduplication and chunked persistence (src/database/supabase_client.py) -/

/-- A scraped record as `dedupe_by_contest_id` sees it: the `contest_id`
entry of the dict (`none` when the key is absent) and the rest of the dict,
opaque to deduplication, collapsed into `rest`. -/
structure ScrapedRecord where
  contest_id : Option String
  rest : Nat
deriving DecidableEq

/-- `if not r.get("contest_id"): continue` (line 17): a missing key and the
falsy empty string are both skipped. -/
def falsy_contest_id (r : ScrapedRecord) : Bool :=
  match r.contest_id with
  | none => true
  | some s => s == ""

/-- The loop of `dedupe_by_contest_id` (lines 14-21): `seen` is the set of
contest ids already kept, `out` is built by appending in input order. -/
def dedupe_loop (seen : List String) : List ScrapedRecord → List ScrapedRecord
  | [] => []
  | r :: rs =>
    match r.contest_id with
    | none => dedupe_loop seen rs
    | some cid =>
      if cid = "" then dedupe_loop seen rs
      else if cid ∈ seen then dedupe_loop seen rs
      else r :: dedupe_loop (cid :: seen) rs

def dedupe_by_contest_id (rows : List ScrapedRecord) : List ScrapedRecord :=
  dedupe_loop [] rows

/-- Python `range(start, stop, step)` for non-negative arguments.  (Python
raises `ValueError` for `step == 0`; that case is modelled as `[]` and never
arises here: `chunked_upsert`'s chunk size is 500 at every call site.) -/
def pyRange (start stop step : Nat) : List Nat :=
  if _h : 0 < step ∧ start < stop then
    start :: pyRange (start + step) stop step
  else []
termination_by stop - start
decreasing_by omega

/-- `len(resp.data or [])` of one store call, with a raised exception
contributing nothing (the `except` branch logs and `continue`s). -/
def chunk_result : Except String Nat → Nat
  | .ok k => k
  | .error _ => 0

/-- `chunked_upsert` (lines 26-41): iterate `range(0, len(rows),
chunk_size)`; for each start index `i` upsert the slice `rows[i : i + C]`;
a store exception for one chunk is caught, logged and skipped; the returned
`total` accumulates `len(resp.data or [])` over the successful chunks.
`store i chunk` is the store's answer to the upsert call for the chunk
starting at index `i`. -/
def chunked_upsert {α : Type} (rows : List α) (chunkSize : Nat)
    (store : Nat → List α → Except String Nat) : Nat :=
  (pyRange 0 rows.length chunkSize).foldl
    (fun total i =>
      match store i ((rows.drop i).take chunkSize) with
      | .ok k => total + k
      | .error _ => total) 0

/-! ### Fetch with retry (src/scraper/web_client.py, lines 13-40) -/

/-- An HTTP response as `fetch_with_retry` reads it. -/
structure HttpResponse where
  status : Nat
  body : String
deriving DecidableEq

/-- The retryable statuses of line 34. -/
def transient_statuses : List Nat := [429, 500, 502, 503, 504]

/-- Line 37: `delay = base * (2**attempt) + (0.2 * attempt)` with
`base = 0.25`, in exact rational arithmetic. -/
def fetch_delay (attempt : Nat) : ℚ :=
  (1 / 4) * 2 ^ attempt + (2 / 10) * attempt

/-- `fetch_with_retry`'s `while True` loop from a given `attempt` counter:
`resp n` is the response to the (n+1)-th GET.  Returns the outcome (the
200 response's body, or the raised `Exception` message) together with the
list of backoff delays slept, in order. -/
def fetch_with_retry (resp : Nat → HttpResponse) (retries : Nat)
    (attempt : Nat) : Except String String × List ℚ :=
  let res := resp attempt
  if res.status = 200 then (.ok res.body, [])
  else if _h : retries ≤ attempt ∨ res.status ∉ transient_statuses then
    (.error ("fetch failed " ++ toString res.status), [])
  else
    let rest := fetch_with_retry resp retries (attempt + 1)
    (rest.1, fetch_delay attempt :: rest.2)
termination_by retries - attempt
decreasing_by omega

/-! ## Theorems -/

/-- Claim C3 counterexample: July (month 7, a valid month) is in no declared
season profile's month list, so `get_current_season` reaches the defensive
fallback branch for July — the claimed full 1–12 coverage is false and the
fallback branch is reachable. -/
theorem c3_counterexample :
    (∀ config ∈ SEASONAL_SPORTS, 7 ∉ config.months) ∧
    SEASONAL_SPORTS.find? (fun config => 7 ∈ config.months) = none ∧
    get_current_season 7 = "fall" := by
  decide

/-- Claim C3 (amended): every month 1–12 except July is contained in at
least one declared season profile, so first-match resolution returns a
matching profile for those months (declaration order is observable at the
overlaps: November resolves to "fall", December to "late_fall", February to
"winter", March to "late_winter"); for July no profile matches and the
fixed fallback season "fall" is returned — the fallback branch is reachable
exactly at July. -/
theorem c3_coverage_except_july :
    (∀ m ∈ [1, 2, 3, 4, 5, 6, 8, 9, 10, 11, 12],
       ∃ config ∈ SEASONAL_SPORTS, m ∈ config.months) ∧
    (∀ config ∈ SEASONAL_SPORTS, 7 ∉ config.months) ∧
    get_current_season 7 = "fall" ∧
    get_current_season 11 = "fall" ∧
    get_current_season 12 = "late_fall" ∧
    get_current_season 2 = "winter" ∧
    get_current_season 3 = "late_winter" := by
  decide

/-- Claim C1 counterexample: an entry with cron `"* * * * *"` and no prior
run, whose task raises during the tick, is invoked (second component
`true`) yet its `last_run` is left at `none` — not set to the current
minute.  The claimed unconditional `last_fired_minute` update is false: the
assignment sits inside the `try` block after the invocation. -/
theorem c1_counterexample :
    (tick_task "* * * * *" none ⟨0, 0, 1, 1, 0⟩ "2025-01-01 00:00" true).2 = true ∧
    (tick_task "* * * * *" none ⟨0, 0, 1, 1, 0⟩ "2025-01-01 00:00" true).1 ≠
      some "2025-01-01 00:00" := by
  decide

/-- Claim C1 (amended): after a cron match and task invocation, the
scheduler sets `last_run` to the current minute only when the task returned
without raising; when the task raises, the error is logged, the loop
survives, `last_run` is left unchanged — and therefore the failing task is
invoked again by the next tick within the same matching minute. -/
theorem c1_last_run_only_on_success (cron : String) (lastRun : Option String)
    (now : Instant) (m : String) (s : Bool)
    (hne : lastRun ≠ some m) (hmatch : matches_cron cron now = true) :
    tick_task cron lastRun now m false = (some m, true) ∧
    tick_task cron lastRun now m true = (lastRun, true) ∧
    (tick_task cron (tick_task cron lastRun now m true).1 now m s).2 = true := by
  simp only [tick_task, hne, hmatch]
  cases s <;> simp [hne, hmatch]

/-- Claim C1 witness: the amended behaviour at a concrete entry. -/
theorem c1_witness :
    tick_task "* * * * *" none ⟨0, 0, 1, 1, 0⟩ "2025-01-01 00:01" false =
      (some "2025-01-01 00:01", true) ∧
    tick_task "* * * * *" none ⟨0, 0, 1, 1, 0⟩ "2025-01-01 00:01" true =
      (none, true) ∧
    (tick_task "* * * * *"
      (tick_task "* * * * *" none ⟨0, 0, 1, 1, 0⟩ "2025-01-01 00:01" true).1
      ⟨0, 0, 1, 1, 0⟩ "2025-01-01 00:01" true).2 = true :=
  c1_last_run_only_on_success "* * * * *" none ⟨0, 0, 1, 1, 0⟩
    "2025-01-01 00:01" true (by decide) (by decide)

/-- Claim C4 counterexample: the basic scheduler's cron-driven default
scrape task (`scheduled_scrape_task`) submits `force = False` ("Respect
time window"), so `scrape_handler` does consult the time-window gate for
it, and outside the window the run is skipped — contradicting the claim
that cron-driven invocations never consult the gate and cannot be skipped
by it. -/
theorem c4_counterexample :
    scheduled_scrape_task_force = false ∧
    scrape_gate_skips false scheduled_scrape_task_force = true := by
  decide

/-- Claim C4 (amended): the time-window gate is consulted for every
unforced invocation of `scrape_handler`, including the basic scheduler's
cron-driven default scrape task, which is skipped exactly when the current
time is outside the run window; the football cron task, the advanced
scheduler's timezone cron tasks, any explicitly forced request, and any
request with a parseable date override resolve `force` to true and bypass
the gate. -/
theorem c4_gate_consultation (w : Bool) (q d : Option String) (bf : Bool) :
    scrape_gate_skips w scheduled_scrape_task_force = !w ∧
    scrape_gate_skips w scheduled_football_scrape_force = false ∧
    scrape_gate_skips w timezone_scrape_task_force = false ∧
    scrape_gate_skips w (handler_force true q d) = false ∧
    scrape_gate_skips w (handler_force bf q (some "10/3/2025")) = false := by
  simp [scrape_gate_skips, scheduled_scrape_task_force,
    scheduled_football_scrape_force, timezone_scrape_task_force, handler_force]

/-- Claim C6 counterexample: with one reclassifiable row queried and a
store that raises on the upsert, `finalize_scores` does not swallow the
failure — it re-raises it as a `Database update error`, so a store
exception escapes the finalize operation to its caller. -/
theorem c6_counterexample :
    finalize_scores
        [⟨1, "al", "FOOTBALL", "contest-in-progress", none, none, true, "Q4"⟩]
        (.error "boom") =
      .error "Database update error: boom" := by
  rfl

/-- Claim C6 (amended): during a finalize pass with at least one update
record built, a persistence (upsert) failure is logged and then re-raised
as a `Database update error` exception: it fails the whole finalize
operation, and the store exception does escape `finalize_scores` to its
caller (the API handler maps it to a 500 response). -/
theorem c6_upsert_error_escapes (rows : List GameRow) (e : String)
    (h : build_updates rows ≠ []) :
    finalize_scores rows (.error e) =
      .error ("Database update error: " ++ e) := by
  have hrows : rows ≠ [] := by
    intro h0
    subst h0
    exact h rfl
  unfold finalize_scores
  rw [if_neg (by simpa using hrows)]
  simp only []
  rw [if_neg (by simpa using h)]

/-- Claim C6 witness: the amended behaviour at a concrete row set. -/
theorem c6_witness :
    finalize_scores
        [⟨2, "ga", "FOOTBALL", "contest-in-progress", some 10, some 7, true, "Q4"⟩]
        (.error "x") =
      .error ("Database update error: " ++ "x") :=
  c6_upsert_error_escapes
    [⟨2, "ga", "FOOTBALL", "contest-in-progress", some 10, some 7, true, "Q4"⟩]
    "x" (by decide)

/-- Claim C5: in a finalize pass, a queried row in state
"contest-in-progress" with both scores absent is reclassified to
"score-not-reported"; with at least one score present, to
"needs-verification"; every produced update record forces `is_live` to
false and `details` to the fixed terminal label "Final"; and a row in any
other contest state is never reclassified (produces no update). -/
theorem c5_finalize_classification :
    (∀ r : GameRow, r.contest_state = "contest-in-progress" →
        r.team1_score = none → r.team2_score = none →
        build_update r = some ⟨r.id, "score-not-reported", false, "Final"⟩) ∧
    (∀ r : GameRow, r.contest_state = "contest-in-progress" →
        r.team1_score ≠ none ∨ r.team2_score ≠ none →
        build_update r = some ⟨r.id, "needs-verification", false, "Final"⟩) ∧
    (∀ (rows : List GameRow) (u : UpdateRec), u ∈ build_updates rows →
        u.is_live = false ∧ u.details = "Final") ∧
    (∀ r : GameRow, r.contest_state ≠ "contest-in-progress" →
        build_update r = none) := by
  refine ⟨?_, ?_, ?_, ?_⟩
  · intro r h1 h2 h3
    simp [build_update, h1, h2, h3]
  · intro r h1 h2
    have hnb : ¬(r.team1_score = none ∧ r.team2_score = none) := by tauto
    simp [build_update, h1, hnb, h2]
  · intro rows u hu
    rw [build_updates, List.mem_filterMap] at hu
    obtain ⟨r, _, hr⟩ := hu
    unfold build_update at hr
    by_cases hst : r.contest_state = "contest-in-progress"
    · rw [if_pos hst] at hr
      by_cases hb : r.team1_score = none ∧ r.team2_score = none
      · rw [if_pos hb] at hr
        cases hr
        exact ⟨rfl, rfl⟩
      · rw [if_neg hb] at hr
        by_cases ho : r.team1_score ≠ none ∨ r.team2_score ≠ none
        · rw [if_pos ho] at hr
          cases hr
          exact ⟨rfl, rfl⟩
        · rw [if_neg ho] at hr
          cases hr
    · rw [if_neg hst] at hr
      cases hr
  · intro r h
    simp [build_update, h]

/-- Every update record built by `build_updates` carries one of the two
terminal contest states. -/
theorem build_updates_state_terminal (rows : List GameRow) (u : UpdateRec)
    (hu : u ∈ build_updates rows) :
    u.contest_state = "score-not-reported" ∨
    u.contest_state = "needs-verification" := by
  rw [build_updates, List.mem_filterMap] at hu
  obtain ⟨r, _, hr⟩ := hu
  unfold build_update at hr
  by_cases hst : r.contest_state = "contest-in-progress"
  · rw [if_pos hst] at hr
    by_cases hb : r.team1_score = none ∧ r.team2_score = none
    · rw [if_pos hb] at hr
      cases hr
      left
      rfl
    · rw [if_neg hb] at hr
      by_cases ho : r.team1_score ≠ none ∨ r.team2_score ≠ none
      · rw [if_pos ho] at hr
        cases hr
        right
        rfl
      · rw [if_neg ho] at hr
        cases hr
  · rw [if_neg hst] at hr
    cases hr

/-- A row that is not in "contest-in-progress" produces no update. -/
theorem build_update_eq_none (r : GameRow)
    (h : r.contest_state ≠ "contest-in-progress") : build_update r = none := by
  simp [build_update, h]

/-- Every row in "contest-in-progress" produces an update keyed by its own
id (the two classification branches are exhaustive). -/
theorem build_updates_covers (rows : List GameRow) (r : GameRow)
    (hmem : r ∈ rows) (hst : r.contest_state = "contest-in-progress") :
    ∃ u ∈ build_updates rows, u.id = r.id := by
  by_cases hb : r.team1_score = none ∧ r.team2_score = none
  · refine ⟨⟨r.id, "score-not-reported", false, "Final"⟩, ?_, rfl⟩
    rw [build_updates, List.mem_filterMap]
    exact ⟨r, hmem, by simp [build_update, hst, hb.1, hb.2]⟩
  · have ho : r.team1_score ≠ none ∨ r.team2_score ≠ none := by tauto
    refine ⟨⟨r.id, "needs-verification", false, "Final"⟩, ?_, rfl⟩
    rw [build_updates, List.mem_filterMap]
    refine ⟨r, hmem, ?_⟩
    simp [build_update, hst, hb, ho]

/-- Claim C10: the two terminal states written by finalize pass the
finalize query's contest-state exclusions (only "boxscore" and "pregame"
are excluded), yet a second finalize pass over the store state produced by
a first pass generates zero update records, because only rows in
"contest-in-progress" are ever reclassified and the first pass moved every
such queried row to a terminal state. -/
theorem c10_finalize_idempotent :
    (passes_state_filter "score-not-reported" = true ∧
     passes_state_filter "needs-verification" = true) ∧
    (∀ (store : List GameRow) (states : List String) (sport : String),
       finalize_pass_updates
         (store.map (apply_update (finalize_pass_updates store states sport)))
         states sport = []) := by
  refine ⟨by decide, ?_⟩
  intro store states sport
  rw [finalize_pass_updates, build_updates, List.filterMap_eq_nil_iff]
  intro r' hr'
  rw [finalize_query, List.mem_filter] at hr'
  obtain ⟨hmem, hpred⟩ := hr'
  rw [List.mem_map] at hmem
  obtain ⟨r, hrStore, rfl⟩ := hmem
  rw [apply_update] at hpred ⊢
  cases hfind : (finalize_pass_updates store states sport).find?
      (fun u => u.id == r.id) with
  | some u =>
    dsimp only
    apply build_update_eq_none
    have hu : u ∈ finalize_pass_updates store states sport :=
      List.mem_of_find?_eq_some hfind
    rcases build_updates_state_terminal _ u hu with h | h <;> simp [h]
  | none =>
    dsimp only
    rw [hfind] at hpred
    dsimp only at hpred
    apply build_update_eq_none
    intro hcp
    have hq : r ∈ finalize_query store states sport := by
      rw [finalize_query, List.mem_filter]
      exact ⟨hrStore, hpred⟩
    obtain ⟨u, huU, huid⟩ := build_updates_covers _ r hq hcp
    have hnone := List.find?_eq_none.mp hfind u huU
    simp [huid] at hnone

/-- Unfold lemma: a record with no contest id is skipped. -/
theorem dedupe_loop_cons_none (seen : List String) (x : ScrapedRecord)
    (xs : List ScrapedRecord) (h : x.contest_id = none) :
    dedupe_loop seen (x :: xs) = dedupe_loop seen xs := by
  simp [dedupe_loop, h]

/-- Unfold lemma: a record with an empty (falsy) contest id is skipped. -/
theorem dedupe_loop_cons_empty (seen : List String) (x : ScrapedRecord)
    (xs : List ScrapedRecord) (cid : String) (h : x.contest_id = some cid)
    (h1 : cid = "") :
    dedupe_loop seen (x :: xs) = dedupe_loop seen xs := by
  simp [dedupe_loop, h, h1]

/-- Unfold lemma: a record whose contest id was already seen is skipped. -/
theorem dedupe_loop_cons_seen (seen : List String) (x : ScrapedRecord)
    (xs : List ScrapedRecord) (cid : String) (h : x.contest_id = some cid)
    (h1 : cid ≠ "") (h2 : cid ∈ seen) :
    dedupe_loop seen (x :: xs) = dedupe_loop seen xs := by
  simp [dedupe_loop, h, h1, h2]

/-- Unfold lemma: a record with a fresh non-empty contest id is kept and
its id marked seen. -/
theorem dedupe_loop_cons_keep (seen : List String) (x : ScrapedRecord)
    (xs : List ScrapedRecord) (cid : String) (h : x.contest_id = some cid)
    (h1 : cid ≠ "") (h2 : cid ∉ seen) :
    dedupe_loop seen (x :: xs) = x :: dedupe_loop (cid :: seen) xs := by
  simp [dedupe_loop, h, h1, h2]

/-- Every kept record carries a non-empty contest id not in `seen`. -/
theorem dedupe_loop_mem (rows : List ScrapedRecord) :
    ∀ (seen : List String) (r : ScrapedRecord), r ∈ dedupe_loop seen rows →
      ∃ cid, r.contest_id = some cid ∧ cid ≠ "" ∧ cid ∉ seen := by
  induction rows with
  | nil =>
    intro seen r h
    simp [dedupe_loop] at h
  | cons x xs ih =>
    intro seen r h
    cases hcid : x.contest_id with
    | none =>
      rw [dedupe_loop_cons_none _ _ _ hcid] at h
      exact ih seen r h
    | some cid =>
      by_cases h1 : cid = ""
      · rw [dedupe_loop_cons_empty _ _ _ _ hcid h1] at h
        exact ih seen r h
      · by_cases h2 : cid ∈ seen
        · rw [dedupe_loop_cons_seen _ _ _ _ hcid h1 h2] at h
          exact ih seen r h
        · rw [dedupe_loop_cons_keep _ _ _ _ hcid h1 h2] at h
          rcases List.mem_cons.mp h with rfl | hmem
          · exact ⟨cid, hcid, h1, h2⟩
          · obtain ⟨cid2, hc, hne, hnin⟩ := ih (cid :: seen) r hmem
            exact ⟨cid2, hc, hne, fun hin => hnin (List.mem_cons_of_mem _ hin)⟩

/-- The dedupe output is a sublist of the input (insertion order
preserved). -/
theorem dedupe_loop_sublist (rows : List ScrapedRecord) :
    ∀ seen : List String, (dedupe_loop seen rows).Sublist rows := by
  induction rows with
  | nil =>
    intro seen
    simp [dedupe_loop]
  | cons x xs ih =>
    intro seen
    cases hcid : x.contest_id with
    | none =>
      rw [dedupe_loop_cons_none _ _ _ hcid]
      exact (ih seen).cons x
    | some cid =>
      by_cases h1 : cid = ""
      · rw [dedupe_loop_cons_empty _ _ _ _ hcid h1]
        exact (ih seen).cons x
      · by_cases h2 : cid ∈ seen
        · rw [dedupe_loop_cons_seen _ _ _ _ hcid h1 h2]
          exact (ih seen).cons x
        · rw [dedupe_loop_cons_keep _ _ _ _ hcid h1 h2]
          exact (ih (cid :: seen)).cons₂ x

/-- Running the dedupe loop again over its own output changes nothing. -/
theorem dedupe_loop_idem (rows : List ScrapedRecord) :
    ∀ seen : List String,
      dedupe_loop seen (dedupe_loop seen rows) = dedupe_loop seen rows := by
  induction rows with
  | nil =>
    intro seen
    simp [dedupe_loop]
  | cons x xs ih =>
    intro seen
    cases hcid : x.contest_id with
    | none =>
      rw [dedupe_loop_cons_none _ _ _ hcid]
      exact ih seen
    | some cid =>
      by_cases h1 : cid = ""
      · rw [dedupe_loop_cons_empty _ _ _ _ hcid h1]
        exact ih seen
      · by_cases h2 : cid ∈ seen
        · rw [dedupe_loop_cons_seen _ _ _ _ hcid h1 h2]
          exact ih seen
        · rw [dedupe_loop_cons_keep _ _ _ _ hcid h1 h2,
            dedupe_loop_cons_keep _ _ _ _ hcid h1 h2, ih (cid :: seen)]

/-- Each kept record is the first input record bearing its contest id. -/
theorem dedupe_loop_first (rows : List ScrapedRecord) :
    ∀ (seen : List String) (r : ScrapedRecord), r ∈ dedupe_loop seen rows →
      rows.find? (fun x => decide (x.contest_id = r.contest_id)) = some r := by
  induction rows with
  | nil =>
    intro seen r h
    simp [dedupe_loop] at h
  | cons x xs ih =>
    intro seen r h
    by_cases hmatch : x.contest_id = r.contest_id
    · rw [List.find?_cons_of_pos _ (by simp [hmatch])]
      obtain ⟨cid, hc, hne, hnin⟩ := dedupe_loop_mem (x :: xs) seen r h
      have hx : x.contest_id = some cid := by rw [hmatch, hc]
      rw [dedupe_loop_cons_keep seen x xs cid hx hne hnin] at h
      rcases List.mem_cons.mp h with rfl | hmem
      · rfl
      · exfalso
        obtain ⟨cid2, hc2, _, hnin2⟩ := dedupe_loop_mem xs (cid :: seen) r hmem
        rw [hc] at hc2
        injection hc2 with hcc
        exact hnin2 (hcc ▸ List.mem_cons_self cid seen)
    · rw [List.find?_cons_of_neg _ (by simp [hmatch])]
      cases hcid : x.contest_id with
      | none =>
        rw [dedupe_loop_cons_none _ _ _ hcid] at h
        exact ih seen r h
      | some cid =>
        by_cases h1 : cid = ""
        · rw [dedupe_loop_cons_empty _ _ _ _ hcid h1] at h
          exact ih seen r h
        · by_cases h2 : cid ∈ seen
          · rw [dedupe_loop_cons_seen _ _ _ _ hcid h1 h2] at h
            exact ih seen r h
          · rw [dedupe_loop_cons_keep _ _ _ _ hcid h1 h2] at h
            rcases List.mem_cons.mp h with rfl | hmem
            · exact absurd rfl hmatch
            · exact ih (cid :: seen) r hmem

/-- The kept records carry pairwise distinct contest ids. -/
theorem dedupe_loop_keys_nodup (rows : List ScrapedRecord) :
    ∀ seen : List String,
      ((dedupe_loop seen rows).map (fun r => r.contest_id)).Nodup := by
  induction rows with
  | nil =>
    intro seen
    simp [dedupe_loop]
  | cons x xs ih =>
    intro seen
    cases hcid : x.contest_id with
    | none =>
      rw [dedupe_loop_cons_none _ _ _ hcid]
      exact ih seen
    | some cid =>
      by_cases h1 : cid = ""
      · rw [dedupe_loop_cons_empty _ _ _ _ hcid h1]
        exact ih seen
      · by_cases h2 : cid ∈ seen
        · rw [dedupe_loop_cons_seen _ _ _ _ hcid h1 h2]
          exact ih seen
        · rw [dedupe_loop_cons_keep _ _ _ _ hcid h1 h2, List.map_cons,
            List.nodup_cons]
          refine ⟨?_, ih (cid :: seen)⟩
          rw [List.mem_map]
          rintro ⟨y, hy, hyc⟩
          obtain ⟨cid2, hc2, _, hnin2⟩ := dedupe_loop_mem xs (cid :: seen) y hy
          rw [hc2, hcid] at hyc
          injection hyc with h3
          exact hnin2 (h3 ▸ List.mem_cons_self cid2 seen)

/-- Claim C8: `dedupe_by_contest_id` is idempotent; its output is a
sublist of the input (first-seen order preserved); each kept record is the
first input record bearing its contest id and kept ids are pairwise
distinct (keep-first-occurrence semantics); and no record lacking a
(non-empty) contest id ever appears in the output. -/
theorem c8_dedupe_properties :
    (∀ rows, dedupe_by_contest_id (dedupe_by_contest_id rows) =
       dedupe_by_contest_id rows) ∧
    (∀ rows, (dedupe_by_contest_id rows).Sublist rows) ∧
    (∀ rows r, r ∈ dedupe_by_contest_id rows →
       rows.find? (fun x => decide (x.contest_id = r.contest_id)) = some r) ∧
    (∀ rows, ((dedupe_by_contest_id rows).map (fun r => r.contest_id)).Nodup) ∧
    (∀ rows r, r ∈ dedupe_by_contest_id rows →
       ∃ cid, r.contest_id = some cid ∧ cid ≠ "") := by
  refine ⟨fun rows => dedupe_loop_idem rows [],
    fun rows => dedupe_loop_sublist rows [],
    fun rows r h => dedupe_loop_first rows [] r h,
    fun rows => dedupe_loop_keys_nodup rows [],
    fun rows r h => ?_⟩
  obtain ⟨cid, hc, hne, _⟩ := dedupe_loop_mem rows [] r h
  exact ⟨cid, hc, hne⟩

/-- Claim C8 witness: keep-first-occurrence at a concrete record list. -/
theorem c8_witness :
    ([⟨some "a", 0⟩, ⟨some "a", 1⟩, ⟨none, 2⟩] : List ScrapedRecord).find?
        (fun x => decide (x.contest_id =
          (⟨some "a", 0⟩ : ScrapedRecord).contest_id)) =
      some ⟨some "a", 0⟩ :=
  c8_dedupe_properties.2.2.1 [⟨some "a", 0⟩, ⟨some "a", 1⟩, ⟨none, 2⟩]
    ⟨some "a", 0⟩ (by decide)

/-- The length of `pyRange start stop step` is the ceiling
`(stop - start + step - 1) / step` (for positive `step`), proved by
induction on an upper bound of `stop - start`. -/
theorem pyRange_length (step : Nat) (hs : 0 < step) :
    ∀ (fuel start stop : Nat), stop - start ≤ fuel →
      (pyRange start stop step).length = (stop - start + step - 1) / step := by
  intro fuel
  induction fuel with
  | zero =>
    intro start stop h
    rw [pyRange, dif_neg (by omega : ¬(0 < step ∧ start < stop))]
    have h0 : stop - start = 0 := by omega
    rw [h0, List.length_nil]
    exact (Nat.div_eq_of_lt (by omega)).symm
  | succ n ih =>
    intro start stop h
    by_cases hlt : start < stop
    · rw [pyRange, dif_pos ⟨hs, hlt⟩, List.length_cons,
        ih (start + step) stop (by omega)]
      have h2 : stop - start + step - 1 = (stop - start - 1) + step := by omega
      rw [h2, Nat.add_div_right _ hs]
      by_cases hds : step ≤ stop - start
      · have h3 : stop - (start + step) + step - 1 = stop - start - 1 := by omega
        rw [h3]
      · have h3 : stop - (start + step) = 0 := by omega
        rw [h3]
        have h4 : (0 + step - 1) / step = 0 := Nat.div_eq_of_lt (by omega)
        have h5 : (stop - start - 1) / step = 0 := Nat.div_eq_of_lt (by omega)
        omega
    · rw [pyRange, dif_neg (by omega : ¬(0 < step ∧ start < stop))]
      have h0 : stop - start = 0 := by omega
      rw [h0, List.length_nil]
      exact (Nat.div_eq_of_lt (by omega)).symm

/-- The chunk loop's fold equals the accumulator plus the per-chunk sum of
successful write counts, with failed chunks contributing zero. -/
theorem chunked_upsert_foldl {α : Type}
    (store : Nat → List α → Except String Nat) (rows : List α) (C : Nat) :
    ∀ (l : List Nat) (acc : Nat),
      l.foldl (fun total i =>
        match store i ((rows.drop i).take C) with
        | .ok k => total + k
        | .error _ => total) acc
      = acc +
        (l.map (fun i => chunk_result (store i ((rows.drop i).take C)))).sum := by
  intro l
  induction l with
  | nil =>
    intro acc
    simp
  | cons x xs ih =>
    intro acc
    rw [List.foldl_cons, List.map_cons, List.sum_cons, ih]
    cases hx : store x ((rows.drop x).take C) with
    | ok k =>
      dsimp only [chunk_result]
      rw [Nat.add_assoc]
    | error e =>
      dsimp only [chunk_result]
      rw [Nat.zero_add]

/-- Claim C7: for N input rows and chunk size C > 0, `chunked_upsert`
iterates exactly ceil(N/C) chunk start indices — one store upsert call per
chunk; a failing chunk contributes nothing while every remaining chunk is
still attempted, so the returned total is the sum over all chunks of the
successful chunks' written-row counts; and the function returns a plain
total (no store exception escapes — the `except` branch logs and
continues). -/
theorem c7_chunked_upsert {α : Type} (rows : List α) (C : Nat)
    (store : Nat → List α → Except String Nat) (hC : 0 < C) :
    (pyRange 0 rows.length C).length = (rows.length + C - 1) / C ∧
    chunked_upsert rows C store =
      ((pyRange 0 rows.length C).map
        (fun i => chunk_result (store i ((rows.drop i).take C)))).sum := by
  constructor
  · have h := pyRange_length C hC rows.length 0 rows.length (by omega)
    simpa using h
  · rw [chunked_upsert, chunked_upsert_foldl]
    simp

/-- Claim C7 witness: three rows in chunks of two — two store calls, the
second failing; the total counts only the first chunk. -/
theorem c7_witness :
    (pyRange 0 ([10, 20, 30] : List Nat).length 2).length =
      (([10, 20, 30] : List Nat).length + 2 - 1) / 2 ∧
    chunked_upsert ([10, 20, 30] : List Nat) 2
        (fun i _ => if i = 0 then Except.ok 2 else Except.error "boom") =
      ((pyRange 0 ([10, 20, 30] : List Nat).length 2).map
        (fun i => chunk_result
          (if i = 0 then Except.ok 2 else Except.error "boom"))).sum :=
  c7_chunked_upsert [10, 20, 30] 2
    (fun i _ => if i = 0 then Except.ok 2 else Except.error "boom")
    (by decide)

/-- Claim C9: `fetch_with_retry` returns the page body on HTTP 200; on a
transient status (429, 500, 502, 503, 504) with remaining retry budget it
sleeps `0.25 * 2 ^ attempt + 0.2 * attempt` seconds and retries; once
`retries` attempts are exhausted it fails terminally; and on any other
non-200 status it fails immediately, performing no retry and no sleep. -/
theorem c9_fetch_retry (resp : Nat → HttpResponse) (retries attempt : Nat) :
    ((resp attempt).status = 200 →
       fetch_with_retry resp retries attempt = (.ok (resp attempt).body, [])) ∧
    ((resp attempt).status ≠ 200 →
       (resp attempt).status ∈ transient_statuses → attempt < retries →
       fetch_with_retry resp retries attempt =
         ((fetch_with_retry resp retries (attempt + 1)).1,
          fetch_delay attempt :: (fetch_with_retry resp retries (attempt + 1)).2)) ∧
    ((resp attempt).status ≠ 200 → retries ≤ attempt →
       fetch_with_retry resp retries attempt =
         (.error ("fetch failed " ++ toString (resp attempt).status), [])) ∧
    ((resp attempt).status ≠ 200 → (resp attempt).status ∉ transient_statuses →
       fetch_with_retry resp retries attempt =
         (.error ("fetch failed " ++ toString (resp attempt).status), [])) ∧
    fetch_delay attempt = (1 / 4 : ℚ) * 2 ^ attempt + (2 / 10) * attempt := by
  refine ⟨?_, ?_, ?_, ?_, rfl⟩
  · intro h200
    rw [fetch_with_retry]
    simp [h200]
  · intro hne htr hlt
    rw [fetch_with_retry]
    simp only []
    rw [if_neg hne, dif_neg (by simp [htr]; omega)]
  · intro hne hge
    rw [fetch_with_retry]
    simp only []
    rw [if_neg hne, dif_pos (Or.inl hge)]
  · intro hne hni
    rw [fetch_with_retry]
    simp only []
    rw [if_neg hne, dif_pos (Or.inr hni)]

/-- Claim C9 witness: a 503 on the first attempt with budget remaining
retries after the backoff delay. -/
theorem c9_witness :
    fetch_with_retry
        (fun n => if n = 0 then ⟨503, ""⟩ else ⟨200, "page"⟩) 3 0 =
      ((fetch_with_retry
          (fun n => if n = 0 then ⟨503, ""⟩ else ⟨200, "page"⟩) 3 1).1,
       fetch_delay 0 ::
        (fetch_with_retry
          (fun n => if n = 0 then ⟨503, ""⟩ else ⟨200, "page"⟩) 3 1).2) :=
  (c9_fetch_retry (fun n => if n = 0 then ⟨503, ""⟩ else ⟨200, "page"⟩) 3 0).2.1
    (by decide) (by decide) (by decide)

/-- Claim C2: for a cron field containing `/`, split as `base/step`
(`step` parsing to a nonzero integer): if `base` is `*` the field matches
value v iff `v % step == 0`; if `base` is a range `a-b` it matches iff
`a <= v <= b` and `(v - a) % step == 0`; otherwise `base` is a single
integer `a` and it matches iff `v >= a` and `(v - a) % step == 0` (`%` is
Python's floor-sign modulus, `Int.fmod`).  Moreover the matcher on
`"*/3 21-23 * * 3,4,5"` returns true for every instant with minute 21,
hour 22 and weekday Thursday (= 3 in the 0=Monday numbering), and false
for every instant falling on Sunday (= 6). -/
theorem c2_cron_step_semantics :
    (∀ (f base stepStr : String) (step v : Int),
       pyContains f '/' = true →
       pySplitOnChar f '/' = [base, stepStr] →
       pyInt? stepStr = some step → step ≠ 0 →
       ((base = "*" →
           matches_field f v = some (decide (Int.fmod v step = 0))) ∧
        (∀ (aS bS : String) (a b : Int),
           pyContains base '-' = true →
           pySplitOnChar base '-' = [aS, bS] →
           pyInt? aS = some a → pyInt? bS = some b →
           matches_field f v =
             some (decide (a ≤ v ∧ v ≤ b ∧ Int.fmod (v - a) step = 0))) ∧
        (∀ a : Int, base ≠ "*" → pyContains base '-' = false →
           pyInt? base = some a →
           matches_field f v =
             some (decide (a ≤ v ∧ Int.fmod (v - a) step = 0))))) ∧
    (∀ day month : Int,
       matches_cron "*/3 21-23 * * 3,4,5" ⟨21, 22, day, month, 3⟩ = true) ∧
    (∀ minute hour day month : Int,
       matches_cron "*/3 21-23 * * 3,4,5" ⟨minute, hour, day, month, 6⟩ =
         false) := by
  refine ⟨?_, fun day month => rfl, ?_⟩
  · intro f base stepStr step v hc hs hstep hstep0
    have hfne : f ≠ "*" := by
      rintro rfl
      revert hc
      decide
    refine ⟨?_, ?_, ?_⟩
    · rintro rfl
      simp only [matches_field]
      rw [if_neg hfne, if_pos hc, hs]
      dsimp only
      rw [hstep]
      dsimp only
      rw [if_pos rfl]
      simp only [pyMod]
      rw [if_neg hstep0]
      rfl
    · intro aS bS a b hbc hbs ha hb
      have hbne : base ≠ "*" := by
        rintro rfl
        revert hbc
        decide
      simp only [matches_field]
      rw [if_neg hfne, if_pos hc, hs]
      dsimp only
      rw [hstep]
      dsimp only
      rw [if_neg hbne, if_pos hbc, hbs]
      dsimp only
      rw [ha, hb]
      dsimp only
      by_cases hab : a ≤ v ∧ v ≤ b
      · rw [if_pos hab]
        simp only [pyMod]
        rw [if_neg hstep0, Option.map_some']
        congr 1
        rw [decide_eq_decide]
        constructor
        · intro h
          exact ⟨hab.1, hab.2, h⟩
        · intro h
          exact h.2.2
      · rw [if_neg hab]
        congr 1
        rw [eq_comm, decide_eq_false_iff_not]
        intro hcontra
        exact hab ⟨hcontra.1, hcontra.2.1⟩
    · intro a hbne hbc ha
      simp only [matches_field]
      rw [if_neg hfne, if_pos hc, hs]
      dsimp only
      rw [hstep]
      dsimp only
      rw [if_neg hbne,
        if_neg (by rw [hbc]; exact Bool.false_ne_true :
          ¬(pyContains base '-' = true))]
      rw [ha]
      dsimp only
      by_cases hav : a ≤ v
      · rw [if_pos hav]
        simp only [pyMod]
        rw [if_neg hstep0, Option.map_some']
        congr 1
        rw [decide_eq_decide]
        constructor
        · intro h
          exact ⟨hav, h⟩
        · intro h
          exact h.2
      · rw [if_neg hav]
        congr 1
        rw [eq_comm, decide_eq_false_iff_not]
        intro hcontra
        exact hav hcontra.1
  · intro minute hour day month
    have hsplit : pySplitWs (pyStrip "*/3 21-23 * * 3,4,5") =
        ["*/3", "21-23", "*", "*", "3,4,5"] := by decide
    simp only [matches_cron, hsplit]
    simp only [show ∀ v : Int, matches_field "*/3" v =
        some (decide (Int.fmod v 3 = 0)) from fun v => rfl,
      show ∀ v : Int, matches_field "21-23" v =
        some (decide ((21 : Int) ≤ v ∧ v ≤ 23)) from fun v => rfl,
      show ∀ v : Int, matches_field "*" v = some true from fun v => rfl,
      show matches_field "3,4,5" 6 = some false from by decide]
    by_cases h1 : Int.fmod minute 3 = 0
    · by_cases h2 : (21 : Int) ≤ hour ∧ hour ≤ 23
      · simp [h1, h2]
      · simp [h1, h2]
    · simp [h1]

/-- Claim C2 witness: the step semantics at concrete fields — a `*` base
at minute 21 with step 3, and a stepped range `21-23/2` at value 23. -/
theorem c2_witness :
    matches_field "*/3" 21 = some (decide (Int.fmod 21 3 = 0)) ∧
    matches_field "21-23/2" 23 =
      some (decide ((21 : Int) ≤ 23 ∧ (23 : Int) ≤ 23 ∧
        Int.fmod (23 - 21) 2 = 0)) :=
  ⟨(c2_cron_step_semantics.1 "*/3" "*" "3" 3 21 (by decide) (by decide)
      (by decide) (by decide)).1 rfl,
   (c2_cron_step_semantics.1 "21-23/2" "21-23" "2" 2 23 (by decide)
      (by decide) (by decide) (by decide)).2.1 "21" "23" 21 23
      (by decide) (by decide) (by decide) (by decide)⟩

/-- Claim C5 witness: the classification at concrete rows. -/
theorem c5_witness :
    build_update
        ⟨3, "al", "FOOTBALL", "contest-in-progress", none, none, true, "Q1"⟩ =
      some ⟨3, "score-not-reported", false, "Final"⟩ :=
  c5_finalize_classification.1
    ⟨3, "al", "FOOTBALL", "contest-in-progress", none, none, true, "Q1"⟩
    rfl rfl rfl
